import Mathlib

/-!
Verification development for the Gen3/Terra data-table consolidation notebook
(`terra_data_util_update.py`).  The Python code is shallowly embedded: a
DataFrame is a list of column names plus a list of rows, a row is an
association list from column name to string value (a missing entry stands for
pandas NaN), and the remote Terra workspace is a pure table store mapping
table names to DataFrames.  Network failures and Python exceptions
(AssertionError, KeyError, non-200 responses) are modelled with `Except`;
log warnings that the claims talk about are collected in an event list.
-/

namespace TerraDataUtil

/-- A row: association list from column name to cell value.  A column with no
entry in a row stands for a missing value (pandas NaN). -/
abbrev Row := List (String × String)

/-- Value of column `c` in row `r` (first matching entry, `none` = NaN). -/
def rowVal : Row → String → Option String
  | [], _ => none
  | (k, v) :: ps, c => if k = c then some v else rowVal ps c

/-- A pandas DataFrame: ordered column labels and ordered rows. -/
structure DF where
  cols : List String
  rows : List Row
deriving DecidableEq, Repr

/-- Python exceptions raised by the notebook's code paths. -/
inductive Err where
  /-- `FireCloudServiceException` from a non-200 fetch of an absent table. -/
  | tableNotFound (tableName : String)
  /-- Python `assert` failure. -/
  | assertionError (msg : String)
  /-- pandas `KeyError` (column absent). -/
  | keyError (col : String)
  /-- pandas `MergeError` (no join key). -/
  | mergeError
  /-- pandas `DataFrame.insert` with an already-existing column. -/
  | insertError (col : String)
  /-- Python `AttributeError` from using `None` as a DataFrame. -/
  | noneTypeError
deriving DecidableEq, Repr

/-- Logged events that the verified claims talk about. -/
inductive Event where
  /-- `logger.info`: table absent from the workspace, skipped. -/
  | skippedMissing (tableName : String)
  /-- `logger.warning` from `_deduplicate_merge_data`: duplicates removed. -/
  | dedupWarning (tableName dedupKey : String) (removedCount : Nat)
      (removedKeyValues : List (Option String))
  /-- `logger.warning` from `consolidate_to_df`: row count increased. -/
  | rowCountWarning (anticipatedEmptyCells : Nat)
  /-- `logger.error` from `consolidate_to_terra_table`: bad specification. -/
  | invalidSpecError
deriving DecidableEq, Repr

/-- The table store: the workspace's data tables by name (the same data backs
`fapi.get_entities_tsv` and `DataTableInfo` / `fapi.list_entity_types`). -/
abbrev Store := List (String × DF)

/-- `DataTableInfo.get_table_names()`: names of the workspace's tables. -/
def storeNames (store : Store) : List String := store.map (fun p => p.1)

/-- Look a table up in the store. -/
def findTable : Store → String → Option DF
  | [], _ => none
  | (n, df) :: rest, t => if n = t then some df else findTable rest t

/-- `GEN3_TABLE_NAMES` exactly as the Python evaluates it: the source is
missing a comma between `"read_group_qc"` and `"reference_file"`, so those two
adjacent string literals concatenate into one element. -/
def GEN3_TABLE_NAMES : List String :=
  ["aligned_reads_index",
   "aliquot",
   "blood_pressure_test",
   "cardiac_mri",
   "demographic",
   "electrocardiogram_test",
   "exposure",
   "germline_variation_index",
   "lab_result",
   "medical_history",
   "medication",
   "program",
   "project",
   "read_group",
   "read_group_qcreference_file",
   "reference_file_index",
   "sample",
   "simple_germline_variation",
   "study",
   "subject",
   "submitted_aligned_reads",
   "submitted_cnv_array",
   "submitted_snp_array",
   "submitted_unaligned_reads"]

/-- `get_entity_id_column_name`. -/
def get_entity_id_column_name (entity_type : String) : String :=
  entity_type ++ "_entity_id"

/-- `rename_column`: `df.rename(columns={cur: new})` relabels every column
currently named `cur` (pandas renames by label, all occurrences). -/
def rename_column (df : DF) (cur new : String) : DF :=
  { cols := df.cols.map (fun c => if c = cur then new else c),
    rows := df.rows.map (List.map (fun p => if p.1 = cur then (new, p.2) else p)) }

/-- Effect of `rename_column` on the column-label list alone. -/
def renameList (cols : List String) (cur new : String) : List String :=
  cols.map (fun c => if c = cur then new else c)

/-- Keep only the first occurrence of each column label
(`df.loc[:, ~df.columns.duplicated()]`). -/
def dedupFirstAux : List String → List String → List String
  | [], _ => []
  | c :: cs, seen =>
      if c ∈ seen then dedupFirstAux cs seen else c :: dedupFirstAux cs (c :: seen)

/-- First-occurrence column deduplication on a label list. -/
def dedupFirst (cs : List String) : List String := dedupFirstAux cs []

/-- Drop duplicate column labels of a DataFrame, keeping the first occurrence.
Row data needs no change: `rowVal` already reads the first matching entry. -/
def dedupColsDF (df : DF) : DF := { cols := dedupFirst df.cols, rows := df.rows }

/-- The renaming loop of `get_gen3_terra_table_to_df`: first
`entity:<table>_id` is renamed to `<table>_entity_id`, then each of the
remaining original column names (snapshot taken before any rename) is renamed
— to `<name>_entity_id` if it is a known Gen3 table name, otherwise prefixed
with the table name.  Each `rename_column` call acts on the current frame, so
renames are sequential, not simultaneous. -/
def gen3Rename (table_name : String) (df : DF) : DF :=
  let columns := df.cols
  let df0 := rename_column df ("entity:" ++ table_name ++ "_id")
      (table_name ++ "_entity_id")
  (columns.drop 1).foldl
    (fun acc column =>
      if column ∈ GEN3_TABLE_NAMES then
        rename_column acc column (column ++ "_entity_id")
      else
        rename_column acc column (table_name ++ "_" ++ column))
    df0

/-- Resulting column labels of `get_gen3_terra_table_to_df`'s rename-and-
deduplicate stage, as a function of the raw labels. -/
def colsAfterGen3Rename (table_name : String) (cols : List String) : List String :=
  (dedupColsDF (gen3Rename table_name { cols := cols, rows := [] })).cols

/-- `get_terra_table_to_df`: fetch one table from the store.  A non-200
response (absent table) raises; the `tenacity` retry wrapper re-raises the
final failure unchanged and cannot change the outcome against this
deterministic store (the retry schedule itself is modelled separately by
`get_terra_table_retry`). -/
def get_terra_table_to_df (store : Store) (table_name : String) : Except Err DF :=
  match findTable store table_name with
  | some df => .ok df
  | none => .error (.tableNotFound table_name)

/-- `get_gen3_terra_table_to_df`: fetch, rename columns, drop duplicate
columns. -/
def get_gen3_terra_table_to_df (store : Store) (table_name : String) :
    Except Err DF :=
  match get_terra_table_to_df store table_name with
  | .error e => .error e
  | .ok df => .ok (dedupColsDF (gen3Rename table_name df))

/-- The chunking loop of `upload_entities_df`:
`while chunk_start < row_count: chunk_end = min(chunk_start+chunk_size, n);
write df[chunk_start:chunk_end]`.  The fuel argument bounds the iteration
count; `rows.length` iterations always suffice when `chunk_size ≥ 1`
(with `chunk_size = 0` the Python loop does not terminate either). -/
def uploadChunksGo (chunk_size : Nat) : Nat → List α → List (List α)
  | 0, _ => []
  | _, [] => []
  | fuel + 1, l => l.take chunk_size :: uploadChunksGo chunk_size fuel (l.drop chunk_size)

/-- `upload_entities_df`: the sequence of chunks written to the store, one
`fapi_upload_entities` call per chunk, in row order.  (The notebook calls it
with the default `chunk_size=500`.) -/
def upload_entities_df (rows : List α) (chunk_size : Nat) : List (List α) :=
  uploadChunksGo chunk_size rows.length rows

/-- `tenacity.wait_exponential(multiplier, min, max)`: the sleep before
re-attempt `n+1` is `multiplier * 2^n` clamped into `[min, max]`. -/
def wait_exponential (multiplier mn mx n : Nat) : Nat :=
  max mn (min (multiplier * 2 ^ n) mx)

/-- Result of a retried call: final outcome, number of attempts actually
made, and the sleeps performed between attempts. -/
structure RetryOutcome (α : Type) where
  result : Except Err α
  attempts : Nat
  waits : List Nat
deriving Repr

/-- The `tenacity.retry` combinator with `reraise=True` and
`stop=stop_after_attempt`: attempt outcomes are supplied as a function from
the attempt number (1-based).  `retryPred` is the decorator's `retry=`
predicate; when the attempt budget is exhausted or the predicate rejects the
error, the last failure is re-raised unchanged. -/
def tenacityRetryGo (retryPred : Err → Bool) (attempt : Nat → Except Err α)
    (waitFor : Nat → Nat) : Nat → Nat → RetryOutcome α
  | k, 0 => { result := attempt k, attempts := k, waits := [] }
  | k, fuel + 1 =>
    match attempt k with
    | .ok a => { result := .ok a, attempts := k, waits := [] }
    | .error e =>
      if fuel = 0 then { result := .error e, attempts := k, waits := [] }
      else if retryPred e then
        let rest := tenacityRetryGo retryPred attempt waitFor (k + 1) fuel
        { result := rest.result, attempts := rest.attempts,
          waits := waitFor k :: rest.waits }
      else { result := .error e, attempts := k, waits := [] }

/-- The retry policy wrapped around `get_terra_table_to_df`:
`stop_after_attempt(3)`, `wait_exponential(multiplier=1, min=2, max=10)`,
`reraise=True`, and — the decorator names no `retry=` predicate — tenacity's
default of retrying on every exception. -/
def get_terra_table_retry (attempt : Nat → Except Err DF) : RetryOutcome DF :=
  tenacityRetryGo (fun _ => true) attempt (fun k => wait_exponential 1 2 10 k) 1 3

/-- Concrete pandas merge keyword arguments, with the fields of
`standard_pandas_default_parameters`. -/
structure MergeParams where
  how : String
  «on» : Option String
  left_on : Option String
  right_on : Option String
  left_index : Bool
  right_index : Bool
  sort : Bool
  suffixes : String × String
  copy : Bool
  indicator : Bool
  validate : Option String
deriving DecidableEq, Repr

/-- A Python dict of merge parameters used as an override source: `some v`
means the key is present with value `v`, `none` that the key is absent
(`dict.update` overwrites exactly the keys present in the argument). -/
structure MergeParamsPatch where
  how : Option String
  «on» : Option String
  left_on : Option String
  right_on : Option String
  left_index : Option Bool
  right_index : Option Bool
  sort : Option Bool
  suffixes : Option (String × String)
  copy : Option Bool
  indicator : Option Bool
  validate : Option String
deriving DecidableEq, Repr

/-- The empty dict `{}`. -/
def emptyMergePatch : MergeParamsPatch :=
  ⟨none, none, none, none, none, none, none, none, none, none, none⟩

/-- `combined_parameters.update(patch)`: keys present in the patch win. -/
def applyPatch (p : MergeParams) (q : MergeParamsPatch) : MergeParams where
  how := q.how.getD p.how
  «on» := match q.«on» with | some v => some v | none => p.«on»
  left_on := match q.left_on with | some v => some v | none => p.left_on
  right_on := match q.right_on with | some v => some v | none => p.right_on
  left_index := q.left_index.getD p.left_index
  right_index := q.right_index.getD p.right_index
  sort := q.sort.getD p.sort
  suffixes := q.suffixes.getD p.suffixes
  copy := q.copy.getD p.copy
  indicator := q.indicator.getD p.indicator
  validate := match q.validate with | some v => some v | none => p.validate

/-- `standard_pandas_default_parameters`. -/
def standard_pandas_default_parameters : MergeParams :=
  ⟨"inner", none, none, none, false, false, false, ("_x", "_y"), true, false, none⟩

/-- One entry of a merge specification's `merge_sequence`.  Optional fields
model keys that may be absent from the step's dict. -/
structure MergeInfo where
  join_column : Option String
  table_names : List String
  join_type : Option String
  merge_parameters : Option MergeParamsPatch
deriving DecidableEq, Repr

/-- A merge specification document. -/
structure MergeSpec where
  default_join_type : Option String
  default_merge_parameters : Option MergeParamsPatch
  merge_sequence : List MergeInfo
  final_index_source_column : Option String
deriving DecidableEq, Repr

/-- `_create_combined_merge_parameters`: standard pandas defaults, updated by
the (already spec-level-merged) default parameters, then by the step's
`merge_parameters`, then `join_column` sets `on`, then `join_type` sets
`how`. -/
def create_combined_merge_parameters (default_merge_parameters : MergeParamsPatch)
    (merge_info : MergeInfo) : MergeParams :=
  let combined := applyPatch standard_pandas_default_parameters default_merge_parameters
  let combined := match merge_info.merge_parameters with
    | some p => applyPatch combined p
    | none => combined
  let combined := match merge_info.join_column with
    | some jc => { combined with «on» := some jc }
    | none => combined
  match merge_info.join_type with
  | some jt => { combined with how := jt }
  | none => combined

/-- `_substitute_entity_id_column_name`: the `on` / `left_on` / `right_on`
entries, when present and truthy (a non-empty string), are replaced by the
corresponding `<entity>_entity_id` column name. -/
def substitute_entity_id_column_name (mp : MergeParams) : MergeParams :=
  let f : Option String → Option String := fun o =>
    match o with
    | some s => if s = "" then some s else some (get_entity_id_column_name s)
    | none => none
  { mp with «on» := f mp.«on», left_on := f mp.left_on, right_on := f mp.right_on }

/-- The first two lines of `consolidate_to_df`: the spec's
`default_merge_parameters` — or `dict(how="outer")` when that key is absent —
with `how` overwritten by the spec's `default_join_type` when present. -/
def defaultMergeParamsOf (spec : MergeSpec) : MergeParamsPatch :=
  let base := spec.default_merge_parameters.getD
      { emptyMergePatch with how := some "outer" }
  match spec.default_join_type with
  | some j => { base with how := some j }
  | none => base

/-- Key tuple of a row under a list of join keys. -/
def rowKeyTuple (keys : List String) (r : Row) : List (Option String) :=
  keys.map (fun k => rowVal r k)

/-- Add the merge suffix to a row's entries whose column is in the overlap. -/
def suffixRow (overlap : List String) (sfx : String) (r : Row) : Row :=
  r.map (fun p => if p.1 ∈ overlap then (p.1 ++ sfx, p.2) else p)

/-- `pandas.DataFrame.merge` for the forms this notebook uses: a single `on`
key (or, when `on` is absent, the natural join on all common columns), the
four `how` kinds, and `suffixes` applied to non-key columns present on both
sides.  Row order follows pandas for inner/left/right (left keys in order,
matching right rows in order); for `outer` the unmatched right rows are
appended after the left-join rows (pandas additionally sorts outer results by
key — no claim here depends on the row order of an outer join).
`left_on`/`right_on`/index joins are not exercised by the notebook's merge
specifications and are not modelled. -/
def pdMerge (lf rt : DF) (how : String) (onKey : Option String)
    (suffixes : String × String) : Except Err DF :=
  let keysE : Except Err (List String) :=
    match onKey with
    | some k =>
        if k ∈ lf.cols ∧ k ∈ rt.cols then .ok [k] else .error (.keyError k)
    | none =>
        let common := lf.cols.filter (fun c => decide (c ∈ rt.cols))
        if common = [] then .error .mergeError else .ok common
  match keysE with
  | .error e => .error e
  | .ok keys =>
    let overlap := lf.cols.filter
        (fun c => decide (c ∈ rt.cols) && !(decide (c ∈ keys)))
    let lcols := lf.cols.map (fun c => if c ∈ overlap then c ++ suffixes.1 else c)
    let rcols := (rt.cols.filter (fun c => !(decide (c ∈ keys)))).map
        (fun c => if c ∈ overlap then c ++ suffixes.2 else c)
    let combine : Row → Row → Row := fun l r =>
      suffixRow overlap suffixes.1 l ++
        suffixRow overlap suffixes.2 (r.filter (fun p => !(decide (p.1 ∈ keys))))
    let rmatches : Row → List Row := fun l =>
      rt.rows.filter (fun r => decide (rowKeyTuple keys r = rowKeyTuple keys l))
    let lmatches : Row → List Row := fun r =>
      lf.rows.filter (fun l => decide (rowKeyTuple keys l = rowKeyTuple keys r))
    let leftRows : List Row := lf.rows.flatMap (fun l =>
      match rmatches l with
      | [] => [suffixRow overlap suffixes.1 l]
      | ms => ms.map (combine l))
    match how with
    | "inner" => .ok ⟨lcols ++ rcols, lf.rows.flatMap (fun l => (rmatches l).map (combine l))⟩
    | "left" => .ok ⟨lcols ++ rcols, leftRows⟩
    | "right" => .ok ⟨lcols ++ rcols, rt.rows.flatMap (fun r =>
        match lmatches r with
        | [] => [suffixRow overlap suffixes.2 r]
        | ms => ms.map (fun l => combine l r))⟩
    | "outer" => .ok ⟨lcols ++ rcols,
        leftRows ++ (rt.rows.filter (fun r => (lmatches r).isEmpty)).map
          (suffixRow overlap suffixes.2)⟩
    | _ => .error .mergeError

/-- Result of `_deduplicate_merge_data` (the Python mutates its DataFrame
arguments in place; here the updated frames are returned). -/
structure DedupResult where
  merged : Option DF
  current : DF
  events : List Event
deriving Repr

/-- `duplicated(keep="first")` on one column: a row is marked when an earlier
row has the same value in that column. -/
def duplicatedKeepFirst (key : String) : List Row → List (Option String) → List Bool
  | [], _ => []
  | r :: rs, seen =>
      decide (rowVal r key ∈ seen) :: duplicatedKeepFirst key rs (rowVal r key :: seen)

/-- The rows of `cur` marked as duplicates on `key` (later occurrences of a
repeated key value). -/
def removedDupRows (cur : DF) (key : String) : List Row :=
  ((cur.rows.zip (duplicatedKeepFirst key cur.rows [])).filter (fun p => p.2)).map
    (fun p => p.1)

/-- The entity-id values of the rows `_deduplicate_merge_data` deletes from
the candidate table (`common_key_values_for_dupes`). -/
def removedEntityIds (cur : DF) (tname key : String) : List (Option String) :=
  (removedDupRows cur key).map (fun r => rowVal r (get_entity_id_column_name tname))

/-- `_deduplicate_merge_data`: drop later duplicate rows of `cur` on
`dedup_key`, warn with the duplicated key values, and delete from the
accumulator (when present and when it has the candidate's entity-id column)
every row whose entity-id value belongs to a deleted duplicate row. -/
def deduplicate_merge_data (mergedOpt : Option DF) (cur : DF)
    (tname dedup_key : String) : DedupResult :=
  let mask := duplicatedKeepFirst dedup_key cur.rows []
  let dupsValues := (removedDupRows cur dedup_key).map (fun r => rowVal r dedup_key)
  if dupsValues = [] then
    { merged := mergedOpt, current := cur, events := [] }
  else
    let entityCol := get_entity_id_column_name tname
    let orphanIds := removedEntityIds cur tname dedup_key
    let cur' : DF :=
      { cur with rows := ((cur.rows.zip mask).filter (fun p => !p.2)).map (fun p => p.1) }
    let merged' : Option DF :=
      match mergedOpt with
      | some m =>
          if entityCol ∈ m.cols then
            some { m with rows := m.rows.filter (fun r => !(decide (rowVal r entityCol ∈ orphanIds))) }
          else some m
      | none => none
    { merged := merged',
      current := cur',
      events := [Event.dedupWarning tname dedup_key dupsValues.length dupsValues] }

/-- One iteration body of the join loop of `consolidate_tables_to_df` for a
table present in the workspace: fetch and rename it, special-case
deduplication for the `sample` table (which also prunes the accumulator),
merge into the accumulator, and drop duplicate columns of the result. -/
def joinOneTable (store : Store) (mp : MergeParams) (t : String) (merged : DF) :
    Except Err (DF × List Event) :=
  match get_gen3_terra_table_to_df store t with
  | .error e => .error e
  | .ok cur =>
    if t = "sample" then
      let d := deduplicate_merge_data (some merged) cur "sample"
          (get_entity_id_column_name "subject")
      match pdMerge (d.merged.getD merged) d.current mp.how mp.«on» mp.suffixes with
      | .error e => .error e
      | .ok m => .ok (dedupColsDF m, d.events)
    else
      match pdMerge merged cur mp.how mp.«on» mp.suffixes with
      | .error e => .error e
      | .ok m => .ok (dedupColsDF m, [])

/-- The `for table_name in table_names` loop of `consolidate_tables_to_df`:
a name absent from the workspace is logged and skipped; otherwise the table
is joined into the accumulator. -/
def consolidateJoinLoop (store : Store) (mp : MergeParams) :
    List String → DF → List Event → Except Err (DF × List Event)
  | [], merged, evs => .ok (merged, evs)
  | t :: rest, merged, evs =>
    if t ∈ storeNames store then
      match joinOneTable store mp t merged with
      | .error e => .error e
      | .ok (m, devs) => consolidateJoinLoop store mp rest m (evs ++ devs)
    else consolidateJoinLoop store mp rest merged (evs ++ [Event.skippedMissing t])

/-- `consolidate_tables_to_df`.  With no accumulator the step must name at
least two tables (Python `assert`) and its first name seeds the accumulator —
fetched without any existence check; with an accumulator at least one name is
required.  The returned event list collects the skip and dedup logs. -/
def consolidate_tables_to_df (store : Store) (table_names : List String)
    (mp : MergeParams) (initial : Option DF) : Except Err (DF × List Event) :=
  match initial with
  | none =>
    match table_names with
    | t0 :: t1 :: rest =>
      (match get_gen3_terra_table_to_df store t0 with
      | .error e => .error e
      | .ok first_df =>
        if t0 = "sample" then
          let d := deduplicate_merge_data none first_df "sample"
              (get_entity_id_column_name "subject")
          consolidateJoinLoop store mp (t1 :: rest) d.current d.events
        else
          consolidateJoinLoop store mp (t1 :: rest) first_df [])
    | _ => .error (.assertionError "At least two table names are required.")
  | some df =>
    match table_names with
    | [] => .error (.assertionError "At least one table names is required to merge with previous data.")
    | _ => consolidateJoinLoop store mp table_names df []

/-- The step loop of `consolidate_to_df`.  `prev` models the
`previous_row_count` variable (`none` for the initial sentinel `-1`): after
each step, when a previous count exists and the new one is larger, a row-count
warning with the difference is logged. -/
def consolidateSeqLoop (store : Store) (dmp : MergeParamsPatch) :
    List MergeInfo → Option DF → Option Nat → List Event →
    Except Err (Option DF × List Event)
  | [], merged, _, evs => .ok (merged, evs)
  | mi :: rest, merged, prev, evs =>
    let params := substitute_entity_id_column_name
        (create_combined_merge_parameters dmp mi)
    match consolidate_tables_to_df store mi.table_names params merged with
    | .error e => .error e
    | .ok (mdf, evs2) =>
      let warn : List Event :=
        match prev with
        | some p =>
            if p < mdf.rows.length then
              [Event.rowCountWarning (mdf.rows.length - p)]
            else []
        | none => []
      consolidateSeqLoop store dmp rest (some mdf) (some mdf.rows.length)
        (evs ++ evs2 ++ warn)

/-- `consolidate_to_df`: run the merge sequence (the result is `none` when the
sequence is empty, as the Python then returns `None`). -/
def consolidate_to_df (store : Store) (spec : MergeSpec) :
    Except Err (Option DF × List Event) :=
  consolidateSeqLoop store (defaultMergeParamsOf spec) spec.merge_sequence none none []

/-- `'final_index_source_column' in merge_spec and len(...)`: the guard of
`consolidate_to_terra_table`. -/
def finalIndexValid (spec : MergeSpec) : Bool :=
  match spec.final_index_source_column with
  | some s => !(s == "")
  | none => false

/-- Outcome of a `consolidate_to_terra_table` run: the logged events and, when
the run got as far as uploading, the uploaded DataFrame together with the
chunks written by `upload_entities_df`. -/
structure ConsolidateRun where
  events : List Event
  uploaded : Option (DF × List (List Row))
deriving Repr

/-- `consolidate_to_terra_table`: validate `final_index_source_column`
(logging an error and returning `None` — not raising — when it is missing or
empty), consolidate, insert `entity:<name>_id` as the first column with the
values of the chosen source column, and upload in chunks of 500.  The
info-level size reports and the post-upload size comparison only log and are
not modelled. -/
def consolidate_to_terra_table (store : Store) (spec : MergeSpec)
    (entity_name : String) : Except Err ConsolidateRun :=
  if finalIndexValid spec then
    let entity_id_column := spec.final_index_source_column.getD ""
    match consolidate_to_df store spec with
    | .error e => .error e
    | .ok (none, _) => .error .noneTypeError
    | .ok (some mdf, evs) =>
      if entity_id_column ∈ mdf.cols then
        let newCol := "entity:" ++ entity_name ++ "_id"
        if newCol ∈ mdf.cols then .error (.insertError newCol)
        else
          let out : DF :=
            ⟨newCol :: mdf.cols,
             mdf.rows.map (fun r =>
               match rowVal r entity_id_column with
               | some v => (newCol, v) :: r
               | none => r)⟩
          .ok { events := evs, uploaded := some (out, upload_entities_df out.rows 500) }
      else .error (.keyError entity_id_column)
  else .ok { events := [Event.invalidSpecError], uploaded := none }

/-- The column-renaming map as the specification describes it, applied to each
raw column name independently (simultaneously): the table's own entity-id
column becomes `<table>_entity_id`, a raw name equal to a known entity-type
name becomes `<name>_entity_id`, every other name is prefixed with the table
name. -/
def specMapName (table_name : String) (c : String) : String :=
  if c = "entity:" ++ table_name ++ "_id" then table_name ++ "_entity_id"
  else if c ∈ GEN3_TABLE_NAMES then c ++ "_entity_id"
  else table_name ++ "_" ++ c

/-- The specification's whole renaming stage: apply `specMapName` to every raw
column name simultaneously, then keep only the first occurrence of each
resulting name. -/
def specRenameCols (table_name : String) (cols : List String) : List String :=
  dedupFirst (cols.map (specMapName table_name))

/-- The row-count warnings among a list of events, in order. -/
def warningsOf (evs : List Event) : List Nat :=
  evs.filterMap (fun e =>
    match e with
    | Event.rowCountWarning n => some n
    | _ => none)

/-- Row-count warnings of a whole run (none when the run raised). -/
def runRowCountWarnings (r : Except Err (Option DF × List Event)) : List Nat :=
  match r with
  | .ok (_, evs) => warningsOf evs
  | .error _ => []

/-- Modelled from the spec: the join loop as §4.5 of the specification
describes it, emitting a row-count warning after each individual table join
(comparing the joined result's row count with the accumulator's row count
just before that join) instead of once per step. -/
def specJoinLoopPerTable (store : Store) (mp : MergeParams) :
    List String → DF → List Event → Except Err (DF × List Event)
  | [], merged, evs => .ok (merged, evs)
  | t :: rest, merged, evs =>
    if t ∈ storeNames store then
      match joinOneTable store mp t merged with
      | .error e => .error e
      | .ok (m, devs) =>
        let warn : List Event :=
          if merged.rows.length < m.rows.length then
            [Event.rowCountWarning (m.rows.length - merged.rows.length)]
          else []
        specJoinLoopPerTable store mp rest m (evs ++ devs ++ warn)
    else specJoinLoopPerTable store mp rest merged (evs ++ [Event.skippedMissing t])

/-- Modelled from the spec: `consolidate_tables_to_df` with the per-table-join
row-count warnings of `specJoinLoopPerTable`. -/
def spec_consolidate_tables_to_df (store : Store) (table_names : List String)
    (mp : MergeParams) (initial : Option DF) : Except Err (DF × List Event) :=
  match initial with
  | none =>
    match table_names with
    | t0 :: t1 :: rest =>
      (match get_gen3_terra_table_to_df store t0 with
      | .error e => .error e
      | .ok first_df =>
        if t0 = "sample" then
          let d := deduplicate_merge_data none first_df "sample"
              (get_entity_id_column_name "subject")
          specJoinLoopPerTable store mp (t1 :: rest) d.current d.events
        else
          specJoinLoopPerTable store mp (t1 :: rest) first_df [])
    | _ => .error (.assertionError "At least two table names are required.")
  | some df =>
    match table_names with
    | [] => .error (.assertionError "At least one table names is required to merge with previous data.")
    | _ => specJoinLoopPerTable store mp table_names df []

/-- Modelled from the spec: the step loop with warnings after each individual
table join (and therefore no per-step comparison). -/
def specSeqLoopPerTable (store : Store) (dmp : MergeParamsPatch) :
    List MergeInfo → Option DF → List Event → Except Err (Option DF × List Event)
  | [], merged, evs => .ok (merged, evs)
  | mi :: rest, merged, evs =>
    let params := substitute_entity_id_column_name
        (create_combined_merge_parameters dmp mi)
    match spec_consolidate_tables_to_df store mi.table_names params merged with
    | .error e => .error e
    | .ok (mdf, evs2) => specSeqLoopPerTable store dmp rest (some mdf) (evs ++ evs2)

/-- Modelled from the spec: `consolidate_to_df` with warnings emitted per
individual table join, as the specification's Join Engine contract states. -/
def spec_consolidate_to_df (store : Store) (spec : MergeSpec) :
    Except Err (Option DF × List Event) :=
  specSeqLoopPerTable store (defaultMergeParamsOf spec) spec.merge_sequence none []

/-- One join-loop iteration with the deduplication special case removed
(comparator for the claim that only the `sample` table is deduplicated). -/
def joinOneTableNoDedup (store : Store) (mp : MergeParams) (t : String)
    (merged : DF) : Except Err (DF × List Event) :=
  match get_gen3_terra_table_to_df store t with
  | .error e => .error e
  | .ok cur =>
    match pdMerge merged cur mp.how mp.«on» mp.suffixes with
    | .error e => .error e
    | .ok m => .ok (dedupColsDF m, [])

/-- The join loop with no deduplication anywhere. -/
def consolidateJoinLoopNoDedup (store : Store) (mp : MergeParams) :
    List String → DF → List Event → Except Err (DF × List Event)
  | [], merged, evs => .ok (merged, evs)
  | t :: rest, merged, evs =>
    if t ∈ storeNames store then
      match joinOneTableNoDedup store mp t merged with
      | .error e => .error e
      | .ok (m, devs) => consolidateJoinLoopNoDedup store mp rest m (evs ++ devs)
    else consolidateJoinLoopNoDedup store mp rest merged (evs ++ [Event.skippedMissing t])

/-- `consolidate_tables_to_df` with deduplication removed everywhere. -/
def consolidate_tables_to_df_noDedup (store : Store) (table_names : List String)
    (mp : MergeParams) (initial : Option DF) : Except Err (DF × List Event) :=
  match initial with
  | none =>
    match table_names with
    | t0 :: t1 :: rest =>
      (match get_gen3_terra_table_to_df store t0 with
      | .error e => .error e
      | .ok first_df => consolidateJoinLoopNoDedup store mp (t1 :: rest) first_df [])
    | _ => .error (.assertionError "At least two table names are required.")
  | some df =>
    match table_names with
    | [] => .error (.assertionError "At least one table names is required to merge with previous data.")
    | _ => consolidateJoinLoopNoDedup store mp table_names df []

/-- Row counts of the accumulator after each step of the merge sequence
(recomputed independently of the event log). -/
def stepCountsLoop (store : Store) (dmp : MergeParamsPatch) :
    List MergeInfo → Option DF → Except Err (List Nat)
  | [], _ => .ok []
  | mi :: rest, merged =>
    let params := substitute_entity_id_column_name
        (create_combined_merge_parameters dmp mi)
    match consolidate_tables_to_df store mi.table_names params merged with
    | .error e => .error e
    | .ok (mdf, _) =>
      match stepCountsLoop store dmp rest (some mdf) with
      | .error e => .error e
      | .ok cs => .ok (mdf.rows.length :: cs)

/-- Per-step accumulator row counts of a consolidation run. -/
def stepCountsOf (store : Store) (spec : MergeSpec) : Except Err (List Nat) :=
  stepCountsLoop store (defaultMergeParamsOf spec) spec.merge_sequence none

/-- The increases between consecutive counts, starting from an optional
previous count: the warning deltas `consolidate_to_df`'s loop produces. -/
def pairwiseWarn (prev : Option Nat) : List Nat → List Nat
  | [] => []
  | c :: cs =>
    (match prev with
     | some p => if p < c then [c - p] else []
     | none => []) ++ pairwiseWarn (some c) cs

/-- Whether an `Except` result is a normal return (no exception raised). -/
def isOkE (r : Except Err α) : Bool :=
  match r with
  | .ok _ => true
  | .error _ => false

/-! Concrete workspace data used by witnesses and counterexamples.  Four
small tables, each with its `entity:<name>_id` column and a `subject`
foreign-key column. -/

/-- A one-row table named `tbl1` linking entity `a1` to subject `s1`. -/
def tbl1 : DF :=
  ⟨["entity:tbl1_id", "subject"], [[("entity:tbl1_id", "a1"), ("subject", "s1")]]⟩

/-- A one-row table named `tbl2` linking entity `b1` to subject `s1`. -/
def tbl2 : DF :=
  ⟨["entity:tbl2_id", "subject"], [[("entity:tbl2_id", "b1"), ("subject", "s1")]]⟩

/-- A two-row table named `tbl3`, both rows for subject `s1`. -/
def tbl3 : DF :=
  ⟨["entity:tbl3_id", "subject"],
   [[("entity:tbl3_id", "c1"), ("subject", "s1")],
    [("entity:tbl3_id", "c2"), ("subject", "s1")]]⟩

/-- A one-row table named `tbl4` for subject `s2`. -/
def tbl4 : DF :=
  ⟨["entity:tbl4_id", "subject"], [[("entity:tbl4_id", "d1"), ("subject", "s2")]]⟩

/-- The example workspace store. -/
def exampleStore : Store :=
  [("tbl1", tbl1), ("tbl2", tbl2), ("tbl3", tbl3), ("tbl4", tbl4)]

/-- Resolved, substituted merge parameters for an inner join on the canonical
`subject_entity_id` column. -/
def innerOnSubject : MergeParams :=
  { standard_pandas_default_parameters with
      how := "inner", «on» := some "subject_entity_id" }

/-- A two-step all-inner merge specification over the example store whose
second step first grows and then shrinks the accumulator. -/
def exampleSpecTwoSteps : MergeSpec :=
  { default_join_type := some "inner",
    default_merge_parameters := none,
    merge_sequence :=
      [{ join_column := some "subject", table_names := ["tbl1", "tbl2"],
         join_type := none, merge_parameters := none },
       { join_column := some "subject", table_names := ["tbl3", "tbl4"],
         join_type := none, merge_parameters := none }],
    final_index_source_column := some "subject_entity_id" }

/-- A one-step merge specification over the example store. -/
def exampleSpecOneStep : MergeSpec :=
  { default_join_type := some "inner",
    default_merge_parameters := none,
    merge_sequence :=
      [{ join_column := some "subject", table_names := ["tbl1", "tbl2"],
         join_type := none, merge_parameters := none }],
    final_index_source_column := some "subject_entity_id" }

/-- A merge specification with no `final_index_source_column`. -/
def exampleSpecNoFinalIndex : MergeSpec :=
  { default_join_type := none,
    default_merge_parameters := none,
    merge_sequence := [],
    final_index_source_column := none }

/-- A join step on `subject` with no step-local overrides. -/
def plainSubjectStep : MergeInfo :=
  { join_column := some "subject", table_names := ["tbl1", "tbl2"],
    join_type := none, merge_parameters := none }

/-- The per-name rename target of `get_gen3_terra_table_to_df`'s loop body
(for the columns after the first). -/
def loopTarget (table_name c : String) : String :=
  if c ∈ GEN3_TABLE_NAMES then c ++ "_entity_id" else table_name ++ "_" ++ c

/-- An accumulator as it looks after the first join step of the example
store. -/
def exampleAcc : DF :=
  ⟨["tbl1_entity_id", "subject_entity_id"],
   [[("tbl1_entity_id", "a1"), ("subject_entity_id", "s1")]]⟩

/-- Merged result of `exampleSpecTwoSteps` over `exampleStore`. -/
def exampleTwoStepResult : DF :=
  ⟨["tbl1_entity_id", "subject_entity_id", "tbl2_entity_id", "tbl3_entity_id",
    "tbl4_entity_id"], []⟩

/-- Merged result of `exampleSpecOneStep` over `exampleStore`. -/
def exampleOneStepResult : DF :=
  ⟨["tbl1_entity_id", "subject_entity_id", "tbl2_entity_id"],
   [[("tbl1_entity_id", "a1"), ("subject_entity_id", "s1"),
     ("tbl2_entity_id", "b1")]]⟩

/-- A candidate `sample` table (already column-renamed) with a duplicated
subject. -/
def sampleWithDup : DF :=
  ⟨["sample_entity_id", "subject_entity_id"],
   [[("sample_entity_id", "p1"), ("subject_entity_id", "s1")],
    [("sample_entity_id", "p2"), ("subject_entity_id", "s1")]]⟩

/-- An accumulator containing rows for both sample entities. -/
def accWithBothSamples : DF :=
  ⟨["sample_entity_id", "other"],
   [[("sample_entity_id", "p2"), ("other", "x")],
    [("sample_entity_id", "p1"), ("other", "y")]]⟩

/-- A duplicate-removal warning can only name the `sample` table with dedup
key `subject_entity_id`. -/
def dedupWarnsOnlySample (e : Event) : Prop :=
  ∀ tn k c vs, e = Event.dedupWarning tn k c vs →
    tn = "sample" ∧ k = get_entity_id_column_name "subject"

/-! ## Theorems -/

theorem uploadChunksGo_join {α : Type} (chunk_size : Nat) (hcs : 1 ≤ chunk_size) :
    ∀ (fuel : Nat) (l : List α), l.length ≤ fuel →
      (uploadChunksGo chunk_size fuel l).join = l := by
  intro fuel
  induction fuel with
  | zero =>
    intro l hl
    have : l = [] := List.length_eq_zero.mp (Nat.le_zero.mp hl)
    subst this
    rfl
  | succ n ih =>
    intro l hl
    cases l with
    | nil => rfl
    | cons x xs =>
      have hdrop : (List.drop chunk_size (x :: xs)).length ≤ n := by
        rw [List.length_drop]
        have : (x :: xs).length ≤ n + 1 := hl
        omega
      calc (uploadChunksGo chunk_size (n + 1) (x :: xs)).join
          = List.take chunk_size (x :: xs) ++
              (uploadChunksGo chunk_size n (List.drop chunk_size (x :: xs))).join := rfl
        _ = List.take chunk_size (x :: xs) ++ List.drop chunk_size (x :: xs) := by
              rw [ih _ hdrop]
        _ = x :: xs := List.take_append_drop _ _

theorem uploadChunksGo_sizes {α : Type} (chunk_size : Nat) (hcs : 1 ≤ chunk_size) :
    ∀ (fuel : Nat) (l : List α) (c : List α), c ∈ uploadChunksGo chunk_size fuel l →
      c.length ≤ chunk_size ∧ c ≠ [] := by
  intro fuel
  induction fuel with
  | zero => intro l c hc; simp [uploadChunksGo] at hc
  | succ n ih =>
    intro l c hc
    cases l with
    | nil => simp [uploadChunksGo] at hc
    | cons x xs =>
      rcases List.mem_cons.mp hc with rfl | hmem
      · constructor
        · simpa [List.length_take] using Nat.min_le_left chunk_size (x :: xs).length
        · cases chunk_size with
          | zero => exact absurd hcs (by decide)
          | succ m => simp
      · exact ih _ _ hmem

/-- C1: `upload_entities_df` splits the rows into contiguous chunks of at most
`chunk_size` rows in original order, one store write per (non-empty) chunk,
whose concatenation reproduces the row sequence; uploading 1200 rows with
`chunk_size = 500` performs exactly 3 writes of sizes 500, 500, 200. -/
theorem upload_entities_df_partitions :
    (∀ (df : List Row) (chunk_size : Nat), 1 ≤ chunk_size →
      (upload_entities_df df chunk_size).join = df ∧
      ∀ c ∈ upload_entities_df df chunk_size, c.length ≤ chunk_size ∧ c ≠ []) ∧
    (upload_entities_df (List.range 1200) 500).map List.length = [500, 500, 200] ∧
    (upload_entities_df (List.range 1200) 500).length = 3 := by
  refine ⟨fun df chunk_size hcs => ⟨?_, ?_⟩, ?_, ?_⟩
  · exact uploadChunksGo_join chunk_size hcs df.length df le_rfl
  · exact fun c hc => uploadChunksGo_sizes chunk_size hcs df.length df c hc
  · set_option maxRecDepth 10000 in rfl
  · set_option maxRecDepth 10000 in rfl

theorem upload_entities_df_partitions_witness :
    (upload_entities_df (tbl3.rows) 1).join = tbl3.rows ∧
    ∀ c ∈ upload_entities_df (tbl3.rows) 1, c.length ≤ 1 ∧ c ≠ [] :=
  upload_entities_df_partitions.1 tbl3.rows 1 (by norm_num)

/-- C7 counterexample: a first attempt failing with table-not-found is
retried — the wrapped fetch makes a second attempt and returns its result,
rather than re-raising the not-found failure after one attempt. -/
theorem table_not_found_is_retried :
    (get_terra_table_retry
        (fun n => if n = 1 then .error (.tableNotFound "subject") else .ok tbl1)).attempts = 2 ∧
    (get_terra_table_retry
        (fun n => if n = 1 then .error (.tableNotFound "subject") else .ok tbl1)).result = .ok tbl1 :=
  ⟨rfl, rfl⟩

/-- C7 (amended): the fetch makes up to 3 attempts with exponential backoff
starting at 2 s and capped at 10 s, re-raising the final failure unchanged;
every exception is retried alike — including a table-not-found failure —
because the decorator names no retry predicate. -/
theorem get_terra_table_retry_policy :
    (∀ (attempt : Nat → Except Err DF) (d : DF), attempt 1 = .ok d →
      get_terra_table_retry attempt = ⟨.ok d, 1, []⟩) ∧
    (∀ (attempt : Nat → Except Err DF) (e : Err) (d : DF),
      attempt 1 = .error e → attempt 2 = .ok d →
      get_terra_table_retry attempt = ⟨.ok d, 2, [2]⟩) ∧
    (∀ (attempt : Nat → Except Err DF) (e1 e2 : Err),
      attempt 1 = .error e1 → attempt 2 = .error e2 →
      (get_terra_table_retry attempt).result = attempt 3 ∧
      (get_terra_table_retry attempt).attempts = 3 ∧
      (get_terra_table_retry attempt).waits = [2, 4]) ∧
    (wait_exponential 1 2 10 1 = 2 ∧ ∀ n, wait_exponential 1 2 10 n ≤ 10) := by
  refine ⟨?_, ?_, ?_, rfl, ?_⟩
  · intro attempt d h1
    simp [get_terra_table_retry, tenacityRetryGo, h1]
  · intro attempt e d h1 h2
    simp [get_terra_table_retry, tenacityRetryGo, h1, h2, wait_exponential]
  · intro attempt e1 e2 h1 h2
    cases h3 : attempt 3 with
    | ok d =>
      refine ⟨?_, ?_, ?_⟩ <;>
        simp [get_terra_table_retry, tenacityRetryGo, h1, h2, h3, wait_exponential]
    | error e =>
      refine ⟨?_, ?_, ?_⟩ <;>
        simp [get_terra_table_retry, tenacityRetryGo, h1, h2, h3, wait_exponential]
  · intro n
    have h1 : min (1 * 2 ^ n) 10 ≤ 10 := Nat.min_le_right _ _
    simp only [wait_exponential]
    omega

theorem get_terra_table_retry_policy_witness :
    get_terra_table_retry
        (fun n => if n = 1 then .error (.tableNotFound "tbl9") else .ok tbl2) =
      ⟨.ok tbl2, 2, [2]⟩ :=
  get_terra_table_retry_policy.2.1 _ (.tableNotFound "tbl9") tbl2 rfl rfl

/-- C3 counterexample: for a specification with no `default_join_type` and no
merge-parameter overrides anywhere, the resolved join type is `"outer"` — not
`"inner"` — because `consolidate_to_df` substitutes `dict(how="outer")` when
the spec has no `default_merge_parameters` entry. -/
theorem resolved_join_type_default_is_outer :
    (create_combined_merge_parameters (defaultMergeParamsOf exampleSpecNoFinalIndex)
        plainSubjectStep).how = "outer" ∧
    (create_combined_merge_parameters (defaultMergeParamsOf exampleSpecNoFinalIndex)
        plainSubjectStep).how ≠ "inner" := by
  exact ⟨rfl, by decide⟩

/-- C3 (amended): the resolved join type is determined with later sources
winning in the order: pandas default `"inner"`, then the spec's
`default_merge_parameters` — replaced by an implicit `dict(how="outer")` when
that key is absent — then the spec's `default_join_type`, then the step's
`merge_parameters`, then the step's `join_type`.  In particular, with no
overrides at all the resolved join type is `"outer"`. -/
theorem resolved_join_type_chain (spec : MergeSpec) (mi : MergeInfo) :
    (create_combined_merge_parameters (defaultMergeParamsOf spec) mi).how =
      (mi.join_type <|> (mi.merge_parameters.bind (fun p => p.how)) <|>
        spec.default_join_type <|>
        (match spec.default_merge_parameters with
         | some p => p.how
         | none => some "outer")).getD "inner" := by
  rcases mi with ⟨jc, tns, jt, mps⟩
  rcases spec with ⟨djt, dmps, seq, fic⟩
  cases jt <;> cases jc <;> cases djt <;>
    rcases mps with _ | ⟨mh, _, _, _, _, _, _, _, _, _, _⟩ <;>
    rcases dmps with _ | ⟨dh, _, _, _, _, _, _, _, _, _, _⟩ <;>
    first
    | rfl
    | (cases mh <;> cases dh <;> rfl)
    | (cases mh <;> rfl)
    | (cases dh <;> rfl)

theorem dedup_events_no_rowwarn (mergedOpt : Option DF) (cur : DF)
    (tname dedup_key : String) :
    warningsOf (deduplicate_merge_data mergedOpt cur tname dedup_key).events = [] := by
  simp only [deduplicate_merge_data]
  split <;> rfl

/-- C4: whenever the accumulator is present and contains the candidate
table's entity-id column, the accumulator returned by
`_deduplicate_merge_data` has no row whose value in that column is the
entity-id of any row removed as a duplicate. -/
theorem dedup_removes_orphans (m cur : DF) (tname dedup_key : String)
    (hcol : get_entity_id_column_name tname ∈ m.cols) (m' : DF)
    (hres : (deduplicate_merge_data (some m) cur tname dedup_key).merged = some m') :
    ∀ r ∈ m'.rows,
      rowVal r (get_entity_id_column_name tname) ∉ removedEntityIds cur tname dedup_key := by
  unfold deduplicate_merge_data at hres
  by_cases hd : (removedDupRows cur dedup_key).map (fun r => rowVal r dedup_key) = []
  · rw [if_pos hd] at hres
    have hm : m' = m := by
      simpa using hres.symm
    have hnil : removedDupRows cur dedup_key = [] := by
      exact List.map_eq_nil.mp hd
    intro r _hr
    rw [removedEntityIds, hnil]
    simp
  · rw [if_neg hd] at hres
    simp only [if_pos hcol, Option.some.injEq] at hres
    subst hres
    intro r hr
    simp only [List.mem_filter, Bool.not_eq_true', decide_eq_false_iff_not] at hr
    exact hr.2

theorem map_ite_eq_self (c n : String) (l : List String) (h : c ∉ l) :
    l.map (fun x => if x = c then n else x) = l := by
  induction l with
  | nil => rfl
  | cons y ys ih =>
    simp only [List.mem_cons, not_or] at h
    simp only [List.map_cons]
    rw [if_neg (fun hy => h.1 hy.symm), ih h.2]

theorem foldl_rename_cols (t : String) :
    ∀ (l : List String) (d : DF),
      (l.foldl (fun acc column =>
        if column ∈ GEN3_TABLE_NAMES then
          rename_column acc column (column ++ "_entity_id")
        else
          rename_column acc column (t ++ "_" ++ column)) d).cols =
      l.foldl (fun cs c => renameList cs c (loopTarget t c)) d.cols := by
  intro l
  induction l with
  | nil => intro d; rfl
  | cons c cs ih =>
    intro d
    have hstep : (if c ∈ GEN3_TABLE_NAMES then
          rename_column d c (c ++ "_entity_id")
        else rename_column d c (t ++ "_" ++ c)) =
        rename_column d c (loopTarget t c) := by
      by_cases hP : c ∈ GEN3_TABLE_NAMES <;> simp [loopTarget, hP]
    simp only [List.foldl_cons, hstep]
    rw [ih]
    rfl

theorem gen3Rename_cols (t : String) (df : DF) :
    (gen3Rename t df).cols =
      (df.cols.drop 1).foldl (fun cs c => renameList cs c (loopTarget t c))
        (renameList df.cols ("entity:" ++ t ++ "_id") (t ++ "_entity_id")) := by
  simp only [gen3Rename]
  rw [foldl_rename_cols]
  rfl

theorem foldl_renameList_fresh (g : String → String) :
    ∀ (todo done : List String), todo.Nodup →
      (∀ c ∈ todo, c ∉ done) → (∀ c ∈ todo, g c ∉ todo) →
      todo.foldl (fun cs c => renameList cs c (g c)) (done ++ todo) =
        done ++ todo.map g := by
  intro todo
  induction todo with
  | nil => intro done _ _ _; simp
  | cons c todo' ih =>
    intro done hnd hdone hg
    have hcdone : c ∉ done := hdone c (List.mem_cons_self c todo')
    have hctodo : c ∉ todo' := (List.nodup_cons.mp hnd).1
    have h1 : renameList (done ++ c :: todo') c (g c) = (done ++ [g c]) ++ todo' := by
      simp only [renameList, List.map_append, List.map_cons, if_pos rfl]
      rw [map_ite_eq_self c (g c) done hcdone, map_ite_eq_self c (g c) todo' hctodo]
      simp
    have hdone' : ∀ x ∈ todo', x ∉ done ++ [g c] := by
      intro x hx
      simp only [List.mem_append, List.mem_singleton, not_or]
      refine ⟨hdone x (List.mem_cons_of_mem c hx), fun hxg => ?_⟩
      have hgc : g c ∈ c :: todo' := by
        rw [← hxg]; exact List.mem_cons_of_mem c hx
      exact hg c (List.mem_cons_self c todo') hgc
    have hg' : ∀ x ∈ todo', g x ∉ todo' := fun x hx hmem =>
      hg x (List.mem_cons_of_mem c hx) (List.mem_cons_of_mem c hmem)
    simp only [List.foldl_cons]
    rw [h1, ih (done ++ [g c]) (List.nodup_cons.mp hnd).2 hdone' hg']
    simp

theorem specMapName_self (t : String) :
    specMapName t ("entity:" ++ t ++ "_id") = t ++ "_entity_id" := by
  simp [specMapName]

theorem specMapName_of_ne (t c : String) (h : c ≠ "entity:" ++ t ++ "_id") :
    specMapName t c = loopTarget t c := by
  simp [specMapName, loopTarget, h]

/-- C2 counterexample: `rename_column` calls are sequential and rename by
label, so a rename target that coincides with a later raw column name makes
that later rename hit both columns.  For table `s` with raw columns
`entity:s_id, a, s_a` the code produces `[s_entity_id, s_s_a]` (the renamed
`a` column collides with `s_a` and both become `s_s_a`, then one is dropped),
while the claimed per-column map gives `[s_entity_id, s_a, s_s_a]`. -/
theorem gen3_rename_cascades :
    colsAfterGen3Rename "s" ["entity:s_id", "a", "s_a"] = ["s_entity_id", "s_s_a"] ∧
    specRenameCols "s" ["entity:s_id", "a", "s_a"] = ["s_entity_id", "s_a", "s_s_a"] ∧
    colsAfterGen3Rename "s" ["entity:s_id", "a", "s_a"] ≠
      specRenameCols "s" ["entity:s_id", "a", "s_a"] :=
  ⟨rfl, rfl, by decide⟩

/-- C2 (amended): when the first raw column is the table's own
`entity:<t>_id` column, the raw names are distinct, and no renamed name
collides with another raw column name, the renaming behaves as the claim
states: the entity-id column becomes `<t>_entity_id`, a raw name matching a
known entity-type name becomes `<name>_entity_id`, every other column is
prefixed `<t>_`, and only the first occurrence of a duplicate result is
retained.  (Without the no-collision condition the sequential renames
cascade, as the counterexample shows.) -/
theorem gen3_rename_matches_spec_map (t : String) (rest : List String)
    (hnd : rest.Nodup)
    (he : ("entity:" ++ t ++ "_id") ∉ rest)
    (hfresh : ∀ c ∈ ("entity:" ++ t ++ "_id") :: rest, specMapName t c ∉ rest) :
    colsAfterGen3Rename t (("entity:" ++ t ++ "_id") :: rest) =
      specRenameCols t (("entity:" ++ t ++ "_id") :: rest) := by
  have hE : (t ++ "_entity_id") ∉ rest := by
    have h0 := hfresh _ (List.mem_cons_self _ _)
    rwa [specMapName_self] at h0
  show dedupFirst ((gen3Rename t ⟨("entity:" ++ t ++ "_id") :: rest, []⟩).cols) = _
  rw [gen3Rename_cols]
  have hinit : renameList (("entity:" ++ t ++ "_id") :: rest)
      ("entity:" ++ t ++ "_id") (t ++ "_entity_id") = (t ++ "_entity_id") :: rest := by
    simp only [renameList, List.map_cons, if_pos rfl]
    rw [map_ite_eq_self _ _ rest he]
    simp
  have hdrop : ((⟨("entity:" ++ t ++ "_id") :: rest, []⟩ : DF).cols.drop 1) = rest := rfl
  have hdones : ∀ c ∈ rest, c ∉ [t ++ "_entity_id"] := by
    intro c hc
    simp only [List.mem_singleton]
    intro hcE
    exact hE (hcE ▸ hc)
  have hgs : ∀ c ∈ rest, loopTarget t c ∉ rest := by
    intro c hc
    have hcne : c ≠ "entity:" ++ t ++ "_id" := fun hceq => he (hceq ▸ hc)
    have h2 := hfresh c (List.mem_cons_of_mem _ hc)
    rwa [specMapName_of_ne t c hcne] at h2
  have hfold := foldl_renameList_fresh (loopTarget t) rest [t ++ "_entity_id"]
      hnd hdones hgs
  rw [hdrop, hinit]
  rw [show (t ++ "_entity_id") :: rest = [t ++ "_entity_id"] ++ rest from rfl, hfold]
  have hmap : rest.map (specMapName t) = rest.map (loopTarget t) := by
    apply List.map_congr_left
    intro c hc
    exact specMapName_of_ne t c (fun hceq => he (hceq ▸ hc))
  simp only [specRenameCols, List.map_cons, specMapName_self, hmap]
  rfl

theorem gen3_rename_matches_spec_map_witness :
    colsAfterGen3Rename "sample" ["entity:sample_id", "subject", "foo"] =
      specRenameCols "sample" ["entity:sample_id", "subject", "foo"] :=
  gen3_rename_matches_spec_map "sample" ["subject", "foo"]
    (by decide) (by decide) (by decide)

theorem dedup_removes_orphans_witness :
    rowVal [("sample_entity_id", "p1"), ("other", "y")]
        (get_entity_id_column_name "sample") ∉
      removedEntityIds sampleWithDup "sample" "subject_entity_id" :=
  dedup_removes_orphans accWithBothSamples sampleWithDup "sample" "subject_entity_id"
    (by decide)
    ⟨["sample_entity_id", "other"], [[("sample_entity_id", "p1"), ("other", "y")]]⟩
    (by rfl)
    [("sample_entity_id", "p1"), ("other", "y")] (by decide)

theorem joinLoop_skip_filter (store : Store) (mp : MergeParams) (t : String)
    (habs : t ∉ storeNames store) :
    ∀ (names : List String) (acc : DF) (evs evs' : List Event),
      Except.map Prod.fst (consolidateJoinLoop store mp names acc evs) =
      Except.map Prod.fst (consolidateJoinLoop store mp
        (names.filter (fun x => decide (x ≠ t))) acc evs') := by
  intro names
  induction names with
  | nil => intro acc evs evs'; rfl
  | cons c rest ih =>
    intro acc evs evs'
    rcases eq_or_ne c t with rfl | hct
    · have hflt : (c :: rest).filter (fun x => decide (x ≠ c)) =
          rest.filter (fun x => decide (x ≠ c)) := by simp
      rw [hflt]
      have hstep : consolidateJoinLoop store mp (c :: rest) acc evs =
          consolidateJoinLoop store mp rest acc (evs ++ [Event.skippedMissing c]) := by
        simp only [consolidateJoinLoop, if_neg habs]
      rw [hstep]
      exact ih acc _ evs'
    · have hflt : (c :: rest).filter (fun x => decide (x ≠ t)) =
          c :: rest.filter (fun x => decide (x ≠ t)) := by
        simp [List.filter_cons, hct]
      rw [hflt]
      by_cases hcs : c ∈ storeNames store
      · simp only [consolidateJoinLoop, if_pos hcs]
        cases hj : joinOneTable store mp c acc with
        | error e => rfl
        | ok md =>
          rcases md with ⟨m, devs⟩
          exact ih m _ _
      · simp only [consolidateJoinLoop, if_neg hcs]
        exact ih acc _ _

/-- C5 counterexample: the seed table of a first join step (no accumulator)
is fetched without any existence check, so a step naming an absent table
first raises — it is not skipped, and the run does not equal the run with the
absent name removed. -/
theorem first_step_missing_seed_raises :
    consolidate_tables_to_df exampleStore ["absent", "tbl1"] innerOnSubject none =
      .error (.tableNotFound "absent") ∧
    isOkE (consolidate_tables_to_df exampleStore ["absent", "tbl1"]
      innerOnSubject none) = false :=
  ⟨rfl, rfl⟩

/-- C5 (amended): for a join step executed against a non-null accumulator, a
table name absent from the store is logged and skipped, and the step's
resulting accumulator (and error outcome) equals that of the identical step
with every occurrence of that name removed — provided the pruned list is
still non-empty (an emptied list fails the step's at-least-one-table
assertion).  When there is no accumulator, the first table name is fetched
with no existence check and an absent seed is a fatal fetch error. -/
theorem skip_missing_table_equiv (store : Store) (mp : MergeParams) (t : String)
    (names : List String) (acc : DF)
    (habs : t ∉ storeNames store)
    (hne : names.filter (fun x => decide (x ≠ t)) ≠ []) :
    Except.map Prod.fst (consolidate_tables_to_df store names mp (some acc)) =
    Except.map Prod.fst (consolidate_tables_to_df store
      (names.filter (fun x => decide (x ≠ t))) mp (some acc)) := by
  rcases names with _ | ⟨n, rest⟩
  · exact absurd rfl hne
  · rcases hflt : (n :: rest).filter (fun x => decide (x ≠ t)) with _ | ⟨m, mrest⟩
    · exact absurd hflt hne
    · have h2 := joinLoop_skip_filter store mp t habs (n :: rest) acc [] []
      rw [hflt] at h2
      simpa only [consolidate_tables_to_df, hflt] using h2

theorem skip_missing_table_equiv_witness :
    Except.map Prod.fst (consolidate_tables_to_df exampleStore ["absent", "tbl3"]
      innerOnSubject (some exampleAcc)) =
    Except.map Prod.fst (consolidate_tables_to_df exampleStore
      (["absent", "tbl3"].filter (fun x => decide (x ≠ "absent")))
      innerOnSubject (some exampleAcc)) :=
  skip_missing_table_equiv exampleStore innerOnSubject "absent" ["absent", "tbl3"]
    exampleAcc (by decide) (by decide)

/-- C6 counterexample: a specification with no `final_index_source_column`
does not make the consolidation fail: `consolidate_to_terra_table` logs an
error and returns normally (Python `None`) without raising anything to the
caller — it merely performs no upload. -/
theorem missing_final_index_returns_normally :
    consolidate_to_terra_table exampleStore exampleSpecNoFinalIndex "consolidated" =
      .ok { events := [Event.invalidSpecError], uploaded := none } ∧
    isOkE (consolidate_to_terra_table exampleStore exampleSpecNoFinalIndex
      "consolidated") = true :=
  ⟨rfl, rfl⟩

/-- C6 (amended): a missing or empty `final_index_source_column` is detected
before any table access and aborts the run by logging an error and returning
`None` — no exception reaches the caller and no upload happens; a first step
with fewer than two table names (no accumulator), or a later step with no
table names (accumulator present), raises an `AssertionError` which is fatal
and propagates with no retry. -/
theorem invalid_specification_behaviour :
    (∀ (store : Store) (spec : MergeSpec) (n : String), finalIndexValid spec = false →
      consolidate_to_terra_table store spec n =
        .ok { events := [Event.invalidSpecError], uploaded := none }) ∧
    (∀ (store : Store) (mp : MergeParams) (names : List String), names.length < 2 →
      consolidate_tables_to_df store names mp none =
        .error (.assertionError "At least two table names are required.")) ∧
    (∀ (store : Store) (mp : MergeParams) (acc : DF),
      consolidate_tables_to_df store [] mp (some acc) =
        .error (.assertionError
          "At least one table names is required to merge with previous data.")) := by
  refine ⟨?_, ?_, fun store mp acc => rfl⟩
  · intro store spec n h
    simp [consolidate_to_terra_table, h]
  · intro store mp names h
    rcases names with _ | ⟨a, _ | ⟨b, rest⟩⟩
    · rfl
    · rfl
    · simp only [List.length_cons] at h
      omega

theorem invalid_specification_behaviour_witness :
    consolidate_tables_to_df exampleStore ["tbl1"] innerOnSubject none =
      .error (.assertionError "At least two table names are required.") :=
  invalid_specification_behaviour.2.1 exampleStore innerOnSubject ["tbl1"] (by decide)

theorem joinOneTable_no_dedup_of_ne (store : Store) (mp : MergeParams) (t : String)
    (m : DF) (ht : t ≠ "sample") :
    joinOneTable store mp t m = joinOneTableNoDedup store mp t m := by
  unfold joinOneTable joinOneTableNoDedup
  cases get_gen3_terra_table_to_df store t with
  | error e => rfl
  | ok cur => simp only [if_neg ht]

theorem joinLoop_no_dedup (store : Store) (mp : MergeParams) :
    ∀ (names : List String), "sample" ∉ names →
      ∀ (acc : DF) (evs : List Event),
        consolidateJoinLoop store mp names acc evs =
          consolidateJoinLoopNoDedup store mp names acc evs := by
  intro names
  induction names with
  | nil => intro _ acc evs; rfl
  | cons c rest ih =>
    intro h acc evs
    simp only [List.mem_cons, not_or] at h
    have hc : c ≠ "sample" := fun hceq => h.1 hceq.symm
    by_cases hcs : c ∈ storeNames store
    · simp only [consolidateJoinLoop, consolidateJoinLoopNoDedup, if_pos hcs]
      rw [joinOneTable_no_dedup_of_ne store mp c acc hc]
      cases hj : joinOneTableNoDedup store mp c acc with
      | error e => rfl
      | ok md =>
        rcases md with ⟨m, devs⟩
        exact ih h.2 m (evs ++ devs)
    · simp only [consolidateJoinLoop, consolidateJoinLoopNoDedup, if_neg hcs]
      exact ih h.2 acc _

theorem dedup_events_shape (mergedOpt : Option DF) (cur : DF) (tn key : String) :
    ∀ e ∈ (deduplicate_merge_data mergedOpt cur tn key).events,
      ∃ c vs, e = Event.dedupWarning tn key c vs := by
  simp only [deduplicate_merge_data]
  split
  · simp
  · intro e he
    simp only [List.mem_singleton] at he
    exact ⟨_, _, he⟩

theorem dedup_sample_events (mergedOpt : Option DF) (cur : DF) :
    ∀ e ∈ (deduplicate_merge_data mergedOpt cur "sample"
        (get_entity_id_column_name "subject")).events,
      dedupWarnsOnlySample e := by
  intro e he
  obtain ⟨c, vs, rfl⟩ := dedup_events_shape mergedOpt cur _ _ e he
  intro tn k c' vs' hEq
  injection hEq with h1 h2 h3 h4
  exact ⟨h1.symm, h2.symm⟩

theorem joinOneTable_events (store : Store) (mp : MergeParams) (t : String)
    (merged m : DF) (devs : List Event)
    (h : joinOneTable store mp t merged = .ok (m, devs)) :
    ∀ e ∈ devs, dedupWarnsOnlySample e := by
  unfold joinOneTable at h
  cases hf : get_gen3_terra_table_to_df store t with
  | error e0 => simp [hf] at h
  | ok cur =>
    simp only [hf] at h
    by_cases ht : t = "sample"
    · rw [if_pos ht] at h
      cases hm : pdMerge
          ((deduplicate_merge_data (some merged) cur "sample"
            (get_entity_id_column_name "subject")).merged.getD merged)
          ((deduplicate_merge_data (some merged) cur "sample"
            (get_entity_id_column_name "subject")).current)
          mp.how mp.«on» mp.suffixes with
      | error e0 => simp [hm] at h
      | ok mm =>
        simp only [hm, Except.ok.injEq, Prod.mk.injEq] at h
        rw [← h.2]
        exact dedup_sample_events (some merged) cur
    · rw [if_neg ht] at h
      cases hm : pdMerge merged cur mp.how mp.«on» mp.suffixes with
      | error e0 => simp [hm] at h
      | ok mm =>
        simp only [hm, Except.ok.injEq, Prod.mk.injEq] at h
        rw [← h.2]
        intro e he
        exact absurd he (by simp)

theorem joinLoop_events_dedup_shape (store : Store) (mp : MergeParams) :
    ∀ (names : List String) (acc : DF) (evs : List Event) (df : DF)
      (evsOut : List Event),
      consolidateJoinLoop store mp names acc evs = .ok (df, evsOut) →
      (∀ e ∈ evs, dedupWarnsOnlySample e) → ∀ e ∈ evsOut, dedupWarnsOnlySample e := by
  intro names
  induction names with
  | nil =>
    intro acc evs df evsOut h hP
    simp only [consolidateJoinLoop, Except.ok.injEq, Prod.mk.injEq] at h
    rw [← h.2]
    exact hP
  | cons c rest ih =>
    intro acc evs df evsOut h hP
    by_cases hcs : c ∈ storeNames store
    · simp only [consolidateJoinLoop, if_pos hcs] at h
      cases hj : joinOneTable store mp c acc with
      | error e0 => rw [hj] at h; exact absurd h (by simp)
      | ok md =>
        rw [hj] at h
        rcases md with ⟨m, devs⟩
        refine ih m (evs ++ devs) df evsOut h ?_
        intro e he
        rcases List.mem_append.mp he with he | he
        · exact hP e he
        · exact joinOneTable_events store mp c acc m devs hj e he
    · simp only [consolidateJoinLoop, if_neg hcs] at h
      refine ih acc _ df evsOut h ?_
      intro e he
      rcases List.mem_append.mp he with he | he
      · exact hP e he
      · simp only [List.mem_singleton] at he
        subst he
        intro tn k c' vs' hEq
        exact absurd hEq (by simp)

theorem consolidate_tables_events_dedup_shape (store : Store) (mp : MergeParams)
    (names : List String) (initial : Option DF) (df : DF) (evs : List Event)
    (h : consolidate_tables_to_df store names mp initial = .ok (df, evs)) :
    ∀ e ∈ evs, dedupWarnsOnlySample e := by
  rcases initial with _ | acc
  · rcases names with _ | ⟨t0, _ | ⟨t1, rest⟩⟩
    · simp [consolidate_tables_to_df] at h
    · simp [consolidate_tables_to_df] at h
    · simp only [consolidate_tables_to_df] at h
      cases hf : get_gen3_terra_table_to_df store t0 with
      | error e0 => simp [hf] at h
      | ok first_df =>
        simp only [hf] at h
        by_cases ht : t0 = "sample"
        · rw [if_pos ht] at h
          exact joinLoop_events_dedup_shape store mp _ _ _ _ _ h
            (dedup_sample_events none first_df)
        · rw [if_neg ht] at h
          exact joinLoop_events_dedup_shape store mp _ _ _ _ _ h (by simp)
  · rcases names with _ | ⟨t0, rest⟩
    · simp [consolidate_tables_to_df] at h
    · simp only [consolidate_tables_to_df] at h
      exact joinLoop_events_dedup_shape store mp _ _ _ _ _ h (by simp)

/-- C10: deduplication is special-cased to the table named exactly `sample`
and always uses the fixed key `subject_entity_id`: a step whose table list
does not contain `sample` behaves identically to the same engine with the
deduplication code removed (duplicates in other tables are merged as-is), and
any duplicate-removal warning ever emitted names the `sample` table and the
`subject_entity_id` key. -/
theorem dedup_only_sample_table :
    (∀ (store : Store) (mp : MergeParams) (names : List String)
      (initial : Option DF), "sample" ∉ names →
      consolidate_tables_to_df store names mp initial =
        consolidate_tables_to_df_noDedup store names mp initial) ∧
    (∀ (store : Store) (mp : MergeParams) (names : List String)
      (initial : Option DF) (df : DF) (evs : List Event),
      consolidate_tables_to_df store names mp initial = .ok (df, evs) →
      ∀ tn k c vs, Event.dedupWarning tn k c vs ∈ evs →
        tn = "sample" ∧ k = get_entity_id_column_name "subject") := by
  constructor
  · intro store mp names initial hns
    rcases initial with _ | acc
    · rcases names with _ | ⟨t0, _ | ⟨t1, rest⟩⟩
      · rfl
      · rfl
      · simp only [List.mem_cons, not_or] at hns
        have ht0 : t0 ≠ "sample" := fun hceq => hns.1 hceq.symm
        simp only [consolidate_tables_to_df, consolidate_tables_to_df_noDedup]
        cases hf : get_gen3_terra_table_to_df store t0 with
        | error e0 => rfl
        | ok first_df =>
          simp only [if_neg ht0]
          refine joinLoop_no_dedup store mp (t1 :: rest) ?_ first_df []
          simp only [List.mem_cons, not_or]
          exact hns.2
    · rcases names with _ | ⟨t0, rest⟩
      · rfl
      · simp only [consolidate_tables_to_df, consolidate_tables_to_df_noDedup]
        exact joinLoop_no_dedup store mp (t0 :: rest) hns acc []
  · intro store mp names initial df evs h tn k c vs hmem
    exact consolidate_tables_events_dedup_shape store mp names initial df evs h
      (Event.dedupWarning tn k c vs) hmem tn k c vs rfl

theorem dedup_only_sample_table_witness :
    consolidate_tables_to_df exampleStore ["tbl1", "tbl2"] innerOnSubject none =
      consolidate_tables_to_df_noDedup exampleStore ["tbl1", "tbl2"]
        innerOnSubject none :=
  dedup_only_sample_table.1 exampleStore innerOnSubject ["tbl1", "tbl2"] none
    (by decide)

theorem warningsOf_append (a b : List Event) :
    warningsOf (a ++ b) = warningsOf a ++ warningsOf b := by
  simp [warningsOf]

theorem joinOneTable_no_rowwarn (store : Store) (mp : MergeParams) (t : String)
    (merged m : DF) (devs : List Event)
    (h : joinOneTable store mp t merged = .ok (m, devs)) :
    warningsOf devs = [] := by
  unfold joinOneTable at h
  cases hf : get_gen3_terra_table_to_df store t with
  | error e0 => simp [hf] at h
  | ok cur =>
    simp only [hf] at h
    by_cases ht : t = "sample"
    · rw [if_pos ht] at h
      cases hm : pdMerge
          ((deduplicate_merge_data (some merged) cur "sample"
            (get_entity_id_column_name "subject")).merged.getD merged)
          ((deduplicate_merge_data (some merged) cur "sample"
            (get_entity_id_column_name "subject")).current)
          mp.how mp.«on» mp.suffixes with
      | error e0 => simp [hm] at h
      | ok mm =>
        simp only [hm, Except.ok.injEq, Prod.mk.injEq] at h
        rw [← h.2]
        exact dedup_events_no_rowwarn (some merged) cur _ _
    · rw [if_neg ht] at h
      cases hm : pdMerge merged cur mp.how mp.«on» mp.suffixes with
      | error e0 => simp [hm] at h
      | ok mm =>
        simp only [hm, Except.ok.injEq, Prod.mk.injEq] at h
        rw [← h.2]
        rfl

theorem joinLoop_no_rowwarn (store : Store) (mp : MergeParams) :
    ∀ (names : List String) (acc : DF) (evs : List Event) (df : DF)
      (evsOut : List Event),
      consolidateJoinLoop store mp names acc evs = .ok (df, evsOut) →
      warningsOf evsOut = warningsOf evs := by
  intro names
  induction names with
  | nil =>
    intro acc evs df evsOut h
    simp only [consolidateJoinLoop, Except.ok.injEq, Prod.mk.injEq] at h
    rw [← h.2]
  | cons c rest ih =>
    intro acc evs df evsOut h
    by_cases hcs : c ∈ storeNames store
    · simp only [consolidateJoinLoop, if_pos hcs] at h
      cases hj : joinOneTable store mp c acc with
      | error e0 => rw [hj] at h; exact absurd h (by simp)
      | ok md =>
        rw [hj] at h
        rcases md with ⟨m, devs⟩
        rw [ih m (evs ++ devs) df evsOut h, warningsOf_append,
          joinOneTable_no_rowwarn store mp c acc m devs hj, List.append_nil]
    · simp only [consolidateJoinLoop, if_neg hcs] at h
      rw [ih acc _ df evsOut h, warningsOf_append]
      simp [warningsOf]

theorem consolidate_tables_no_rowwarn (store : Store) (mp : MergeParams)
    (names : List String) (initial : Option DF) (df : DF) (evs : List Event)
    (h : consolidate_tables_to_df store names mp initial = .ok (df, evs)) :
    warningsOf evs = [] := by
  rcases initial with _ | acc
  · rcases names with _ | ⟨t0, _ | ⟨t1, rest⟩⟩
    · simp [consolidate_tables_to_df] at h
    · simp [consolidate_tables_to_df] at h
    · simp only [consolidate_tables_to_df] at h
      cases hf : get_gen3_terra_table_to_df store t0 with
      | error e0 => simp [hf] at h
      | ok first_df =>
        simp only [hf] at h
        by_cases ht : t0 = "sample"
        · rw [if_pos ht] at h
          rw [joinLoop_no_rowwarn store mp _ _ _ _ _ h]
          exact dedup_events_no_rowwarn none first_df _ _
        · rw [if_neg ht] at h
          rw [joinLoop_no_rowwarn store mp _ _ _ _ _ h]
          rfl
  · rcases names with _ | ⟨t0, rest⟩
    · simp [consolidate_tables_to_df] at h
    · simp only [consolidate_tables_to_df] at h
      rw [joinLoop_no_rowwarn store mp _ _ _ _ _ h]
      rfl

theorem seqLoop_warnings (store : Store) (dmp : MergeParamsPatch) :
    ∀ (mis : List MergeInfo) (merged : Option DF) (prev : Option Nat)
      (evs : List Event) (m : Option DF) (evsOut : List Event) (cs : List Nat),
      consolidateSeqLoop store dmp mis merged prev evs = .ok (m, evsOut) →
      stepCountsLoop store dmp mis merged = .ok cs →
      warningsOf evsOut = warningsOf evs ++ pairwiseWarn prev cs := by
  intro mis
  induction mis with
  | nil =>
    intro merged prev evs m evsOut cs h1 h2
    simp only [consolidateSeqLoop, Except.ok.injEq, Prod.mk.injEq] at h1
    simp only [stepCountsLoop, Except.ok.injEq] at h2
    rw [← h1.2, ← h2]
    simp [pairwiseWarn]
  | cons mi rest ih =>
    intro merged prev evs m evsOut cs h1 h2
    simp only [consolidateSeqLoop] at h1
    simp only [stepCountsLoop] at h2
    cases hstep : consolidate_tables_to_df store mi.table_names
        (substitute_entity_id_column_name
          (create_combined_merge_parameters dmp mi)) merged with
    | error e => simp [hstep] at h1
    | ok pr =>
      rcases pr with ⟨mdf, evs2⟩
      simp only [hstep] at h1 h2
      cases hrest : stepCountsLoop store dmp rest (some mdf) with
      | error e => simp [hrest] at h2
      | ok cs' =>
        simp only [hrest, Except.ok.injEq] at h2
        rw [← h2]
        have hw := ih (some mdf) (some mdf.rows.length) _ m evsOut cs' h1 hrest
        have h2w : warningsOf evs2 = [] :=
          consolidate_tables_no_rowwarn store _ _ _ _ _ hstep
        cases prev with
        | none =>
          rw [hw, warningsOf_append, warningsOf_append, h2w]
          simp [pairwiseWarn, warningsOf]
        | some p =>
          rw [hw, warningsOf_append, warningsOf_append, h2w]
          by_cases hlt : p < mdf.rows.length
          · simp [pairwiseWarn, hlt, warningsOf]
          · simp [pairwiseWarn, hlt, warningsOf]

/-- C8 counterexample: a run whose second step first grows the accumulator
(joining `tbl3`) and then shrinks it (joining `tbl4`) emits no warning —
`consolidate_to_df` compares row counts only once per step, against the
previous step's final count — while the behaviour the claim describes
(a comparison after each individual table join) would warn once with delta
1. -/
theorem row_count_warning_not_per_table :
    runRowCountWarnings (consolidate_to_df exampleStore exampleSpecTwoSteps) = [] ∧
    runRowCountWarnings (spec_consolidate_to_df exampleStore
      exampleSpecTwoSteps) = [1] ∧
    runRowCountWarnings (consolidate_to_df exampleStore exampleSpecTwoSteps) ≠
      runRowCountWarnings (spec_consolidate_to_df exampleStore
        exampleSpecTwoSteps) :=
  ⟨rfl, rfl, by decide⟩

/-- C8 (amended): the row-count comparison happens once per join step, not
after each individual table join: the warnings a run emits are exactly the
positive differences between consecutive per-step accumulator row counts
(with no comparison for the first step), each warning's estimated empty-cell
count being that difference. -/
theorem row_count_warnings_per_step (store : Store) (spec : MergeSpec)
    (mdf : Option DF) (evs : List Event) (cs : List Nat)
    (h1 : consolidate_to_df store spec = .ok (mdf, evs))
    (h2 : stepCountsOf store spec = .ok cs) :
    warningsOf evs = pairwiseWarn none cs := by
  have h := seqLoop_warnings store (defaultMergeParamsOf spec) spec.merge_sequence
      none none [] mdf evs cs h1 h2
  simpa using h

theorem row_count_warnings_per_step_witness :
    warningsOf ([] : List Event) = pairwiseWarn none [1, 0] :=
  row_count_warnings_per_step exampleStore exampleSpecTwoSteps
    (some exampleTwoStepResult) [] [1, 0] rfl rfl

/-- C9: on a successful run, the uploaded table's first column is exactly
`entity:<new_table_name>_id`, its values are row for row the values of the
merged table's `final_index_source_column`, and the remaining columns are the
merged table's columns in their order at upload time. -/
theorem output_table_format (store : Store) (spec : MergeSpec) (n fic : String)
    (mdf : DF) (evs : List Event)
    (hfic : spec.final_index_source_column = some fic)
    (hne : fic ≠ "")
    (hrun : consolidate_to_df store spec = .ok (some mdf, evs))
    (hcol : fic ∈ mdf.cols)
    (hnew : ("entity:" ++ n ++ "_id") ∉ mdf.cols)
    (hrows : ∀ r ∈ mdf.rows, rowVal r ("entity:" ++ n ++ "_id") = none) :
    ∃ out chunks,
      consolidate_to_terra_table store spec n =
        .ok { events := evs, uploaded := some (out, chunks) } ∧
      out.cols = ("entity:" ++ n ++ "_id") :: mdf.cols ∧
      out.rows.map (fun r => rowVal r ("entity:" ++ n ++ "_id")) =
        mdf.rows.map (fun r => rowVal r fic) ∧
      chunks = upload_entities_df out.rows 500 := by
  have hvalid : finalIndexValid spec = true := by
    simp [finalIndexValid, hfic, hne]
  simp only [consolidate_to_terra_table, hvalid, if_true, hfic, Option.getD_some,
    hrun]
  rw [if_pos hcol, if_neg hnew]
  refine ⟨_, _, rfl, rfl, ?_, rfl⟩
  rw [List.map_map]
  apply List.map_congr_left
  intro r hr
  cases hv : rowVal r fic with
  | some v => simp [Function.comp, hv, rowVal]
  | none => simp [Function.comp, hv, hrows r hr]

theorem output_table_format_witness :
    ∃ out chunks,
      consolidate_to_terra_table exampleStore exampleSpecOneStep "consolidated" =
        .ok { events := [], uploaded := some (out, chunks) } ∧
      out.cols = ("entity:" ++ "consolidated" ++ "_id") :: exampleOneStepResult.cols ∧
      out.rows.map (fun r => rowVal r ("entity:" ++ "consolidated" ++ "_id")) =
        exampleOneStepResult.rows.map (fun r => rowVal r "subject_entity_id") ∧
      chunks = upload_entities_df out.rows 500 :=
  output_table_format exampleStore exampleSpecOneStep "consolidated"
    "subject_entity_id" exampleOneStepResult [] rfl (by decide) rfl
    (by decide) (by decide) (by decide)

end TerraDataUtil
